import Mathlib

/-
Verification of the Place & Load Arbitration Protocol of croquet/docview
(src/pdf-viewer.js).  The replicated `PDFModel` class is embedded as a pure
state-transition function: each Croquet-subscribed handler becomes a Lean
function from the model state (plus the command's payload and, where the
handler reads the virtual clock, the current virtual time) to the next model
state together with the list of events it publishes.
-/

namespace DocView

/-- The lock kinds that ever appear in `interactionStatus.lock`
("place" and "load" in the source; the empty status is `Option.none`). -/
inductive LockKind where
  | place
  | load
deriving DecidableEq, Repr

/-- The record stored in `this.interactionStatus` when a lock is held:
`{ ...data, time: this.now() }` where data carries `viewId`, `lock`, and
(for load locks) `sourceHash`. -/
structure LockRec where
  viewId : String
  lock : LockKind
  sourceHash : Option String
  time : Int
deriving DecidableEq, Repr

/-- The JS `relativeScale` field holds the number `1` after
`resetPlaceParameters` and the string scale token after an applied place. -/
inductive ScaleValue where
  | num (n : Int)
  | str (s : String)
deriving DecidableEq, Repr

/-- `this.scroll`: `{ top, left }` after a reset (no `page` property),
`{ page, top, left }` after `applyPlace`. -/
structure Scroll where
  page : Option Int
  top : Int
  left : Int
deriving DecidableEq, Repr

/-- A `knownHandles` entry `{ handle, name }` (the handle is abstracted as a
number, since the model only stores and republishes it). -/
structure HandleEntry where
  handle : Nat
  name : String
deriving DecidableEq, Repr

/-- The replicated model state owned by `PDFModel`. -/
structure PDFModel where
  interactionStatus : Option LockRec
  knownHandles : List (String × HandleEntry)
  docSourceHash : Option String
  scroll : Scroll
  relativeScale : ScaleValue
  pagesRotation : Int
  scrollMode : Int
deriving DecidableEq, Repr

/-- `Q.PLACE_TIMEOUT = 1000`. -/
def Q_PLACE_TIMEOUT : Int := 1000

/-- `resetPlaceParameters()`. -/
def resetPlaceParameters (st : PDFModel) : PDFModel :=
  { st with
    scroll := { page := none, top := 0, left := 0 }
    relativeScale := .num 1
    pagesRotation := 0
    scrollMode := 0 }

/-- The state set up in `init` (before any persisted-state restore). -/
def initModel : PDFModel :=
  resetPlaceParameters
    { interactionStatus := none
      knownHandles := []
      docSourceHash := none
      scroll := { page := none, top := 0, left := 0 }
      relativeScale := .num 1
      pagesRotation := 0
      scrollMode := 0 }

/-- Events the model publishes. -/
inductive ModelEvent where
  | loadApproved (viewId sourceHash name : String) (userDescription : Option String)
  | loadReady (viewId sourceHash name : String) (userDescription : Option String)
  | placeUpdate (viewId : String)
  | rotationApproved (viewId : String) (rotation : Int)
  | scrollModeApproved (viewId : String) (mode : Int)
  | sessionPersisted
deriving DecidableEq, Repr

/-- JS truthiness of an optional string field (absent and `""` are falsy). -/
def truthyStr : Option String → Bool
  | none => false
  | some s => !s.isEmpty

/-- `this.interactionStatus.sourceHash` (undefined when the status is empty
or the stored record has no such field). -/
def lockSourceHash : Option LockRec → Option String
  | none => none
  | some l => l.sourceHash

/-- `this.interactionStatus = { ...data, time: this.now() }`. -/
def setLock (st : PDFModel) (now : Int) (v : String) (k : LockKind)
    (sh : Option String) : PDFModel :=
  { st with interactionStatus := some { viewId := v, lock := k, sourceHash := sh, time := now } }

/-- `applyLockIfAvailable(data)`: returns `none` when the JS method returns
`false` (lock unavailable, state untouched) and `some st'` when it returns
`true` after installing the new lock record.  The "place" branch rejects iff
`viewId && (viewId !== newViewId || lock !== "place")`; the "load" branch
rejects iff `lock === "load" && interactionStatus.sourceHash === data.sourceHash`. -/
def applyLockIfAvailable (st : PDFModel) (now : Int) (newViewId : String)
    (newLock : LockKind) (sourceHash : Option String) : Option PDFModel :=
  match newLock, st.interactionStatus with
  | .place, some l =>
      if l.viewId ≠ "" ∧ (l.viewId ≠ newViewId ∨ l.lock ≠ .place) then none
      else some (setLock st now newViewId .place sourceHash)
  | .load, some l =>
      if l.lock = .load ∧ l.sourceHash = sourceHash then none
      else some (setLock st now newViewId .load sourceHash)
  | k, none => some (setLock st now newViewId k sourceHash)

/-- `requestLoad(data)` with `data = { viewId, sourceHash, name, userDescription }`. -/
def requestLoad (st : PDFModel) (now : Int) (viewId sourceHash name : String)
    (userDescription : Option String) : PDFModel × List ModelEvent :=
  match applyLockIfAvailable st now viewId .load (some sourceHash) with
  | none => (st, [])
  | some st1 => (st1, [.loadApproved viewId sourceHash name userDescription])

/-- Association-list reading of `this.knownHandles[sourceHash]` (keys are
unique, so first match is the entry). -/
def lookupHandle : List (String × HandleEntry) → String → Option HandleEntry
  | [], _ => none
  | p :: ps, h => if p.1 = h then some p.2 else lookupHandle ps h

/-- `if (!this.knownHandles[sourceHash]) this.knownHandles[sourceHash] = { handle, name }`. -/
def registerHandle (kh : List (String × HandleEntry)) (h : String) (hd : Nat)
    (n : String) : List (String × HandleEntry) :=
  match lookupHandle kh h with
  | none => kh ++ [(h, { handle := hd, name := n })]
  | some _ => kh

/-- `startLoad(data)`: registers the handle if the hash is new, then applies
the supersession check, and on acceptance clears the lock, resets the place
parameters, sets the document identity, persists, and publishes load:ready. -/
def startLoad (st : PDFModel) (viewId sourceHash : String) (handle : Nat)
    (name : String) (userDescription : Option String) : PDFModel × List ModelEvent :=
  let st1 := { st with knownHandles := registerHandle st.knownHandles sourceHash handle name }
  if truthyStr userDescription = false ∧ some sourceHash ≠ lockSourceHash st.interactionStatus then
    (st1, [])
  else
    let st2 := resetPlaceParameters
      { st1 with interactionStatus := none, docSourceHash := some sourceHash }
    (st2, [.sessionPersisted, .loadReady viewId sourceHash name userDescription])

/-- `applyPlace(data)`. -/
def applyPlace (st : PDFModel) (viewId : String) (page top left : Int)
    (scale : ScaleValue) (rotation scrollMode : Int) : PDFModel × List ModelEvent :=
  ({ st with
      scroll := { page := some page, top := top, left := left }
      relativeScale := scale
      pagesRotation := rotation
      scrollMode := scrollMode },
   [.placeUpdate viewId])

/-- `setPlace(data)`. -/
def setPlace (st : PDFModel) (now : Int) (viewId : String) (page top left : Int)
    (scale : ScaleValue) (rotation scrollMode : Int) : PDFModel × List ModelEvent :=
  match applyLockIfAvailable st now viewId .place none with
  | none => (st, [])
  | some st1 => applyPlace st1 viewId page top left scale rotation scrollMode

/-- `releaseInteractionStatus()`. -/
def releaseInteractionStatus (st : PDFModel) : PDFModel :=
  { st with interactionStatus := none }

/-- `endInteraction(viewId)`. -/
def endInteraction (st : PDFModel) (viewId : String) : PDFModel × List ModelEvent :=
  match st.interactionStatus with
  | some l => if l.viewId = viewId then (releaseInteractionStatus st, []) else (st, [])
  | none => (st, [])

/-- `requestRotation(data)`. -/
def requestRotation (st : PDFModel) (now : Int) (viewId : String)
    (rotation : Int) : PDFModel × List ModelEvent :=
  match applyLockIfAvailable st now viewId .place none with
  | none => (st, [])
  | some st1 => (st1, [.rotationApproved viewId rotation])

/-- `requestScrollMode(data)`. -/
def requestScrollMode (st : PDFModel) (now : Int) (viewId : String)
    (mode : Int) : PDFModel × List ModelEvent :=
  match applyLockIfAvailable st now viewId .place none with
  | none => (st, [])
  | some st1 => (st1, [.scrollModeApproved viewId mode])

/-- `checkInteractionStatus()`, fired by the `future(Q.PLACE_TIMEOUT)` timer
at virtual time `now`. -/
def checkInteractionStatus (st : PDFModel) (now : Int) : PDFModel × List ModelEvent :=
  match st.interactionStatus with
  | some l =>
      if l.lock = .place ∧ now - l.time = Q_PLACE_TIMEOUT then (releaseInteractionStatus st, [])
      else (st, [])
  | none => (st, [])

/-- `onViewExit(viewId)`. -/
def onViewExit (st : PDFModel) (viewId : String) : PDFModel × List ModelEvent :=
  match st.interactionStatus with
  | some l => if l.viewId = viewId then (releaseInteractionStatus st, []) else (st, [])
  | none => (st, [])

/-- A command delivered to the model, stamped with the virtual time at which
it is processed (only used by handlers that read `this.now()`). -/
inductive Cmd where
  | requestLoad (now : Int) (viewId sourceHash name : String) (userDescription : Option String)
  | startLoad (viewId sourceHash : String) (handle : Nat) (name : String) (userDescription : Option String)
  | setPlace (now : Int) (viewId : String) (page top left : Int) (scale : ScaleValue) (rotation scrollMode : Int)
  | endInteraction (viewId : String)
  | requestRotation (now : Int) (viewId : String) (rotation : Int)
  | requestScrollMode (now : Int) (viewId : String) (mode : Int)
  | onViewExit (viewId : String)
  | checkInteractionStatus (now : Int)
deriving DecidableEq, Repr

/-- Dispatch one delivered command. -/
def step (st : PDFModel) : Cmd → PDFModel × List ModelEvent
  | .requestLoad now v h n u => requestLoad st now v h n u
  | .startLoad v h hd n u => startLoad st v h hd n u
  | .setPlace now v pg t lf sc r m => setPlace st now v pg t lf sc r m
  | .endInteraction v => endInteraction st v
  | .requestRotation now v r => requestRotation st now v r
  | .requestScrollMode now v m => requestScrollMode st now v m
  | .onViewExit v => onViewExit st v
  | .checkInteractionStatus now => checkInteractionStatus st now

/-- Run a sequence of delivered commands, accumulating published events. -/
def run (st : PDFModel) : List Cmd → PDFModel × List ModelEvent
  | [] => (st, [])
  | c :: cs =>
      let p := step st c
      let q := run p.1 cs
      (q.1, p.2 ++ q.2)

/-- The hash carried by a load:approved event (`none` for other events). -/
def approvedHash : ModelEvent → Option String
  | .loadApproved _ h _ _ => some h
  | _ => none

/-- The hash of the most recent load:approved event in a published trace. -/
def mostRecentApprovedHash (evs : List ModelEvent) : Option String :=
  evs.foldl (fun acc e => match approvedHash e with | some h => some h | none => acc) none

/-- Well-formedness of the lock state: any held lock names a nonempty holder
(Croquet view ids are nonempty strings). -/
def lockWF (st : PDFModel) : Prop :=
  ∀ l, st.interactionStatus = some l → l.viewId ≠ ""

/-- Well-formedness of a delivered command: the submitting client's view id
is nonempty. -/
def cmdWF : Cmd → Prop
  | .requestLoad _ v _ _ _ => v ≠ ""
  | .startLoad v _ _ _ _ => v ≠ ""
  | .setPlace _ v _ _ _ _ _ _ => v ≠ ""
  | .endInteraction v => v ≠ ""
  | .requestRotation _ v _ => v ≠ ""
  | .requestScrollMode _ v _ => v ≠ ""
  | .onViewExit v => v ≠ ""
  | .checkInteractionStatus _ => True

/-- Relation between the lock state and the published trace: whenever the
lock record carries a `sourceHash`, that hash is the one most recently
approved via load:request. -/
def hashInv (st : PDFModel) (evs : List ModelEvent) : Prop :=
  ∀ h, lockSourceHash st.interactionStatus = some h → mostRecentApprovedHash evs = some h

/-- A state holding a load lock for hash "h1" on behalf of view "v1". -/
def stLoadLockExample : PDFModel :=
  { initModel with
    interactionStatus := some { viewId := "v1", lock := .load, sourceHash := some "h1", time := 0 } }

/-- A state holding a place lock on behalf of view "v1", granted at time 0. -/
def stPlaceLockExample : PDFModel :=
  { initModel with
    interactionStatus := some { viewId := "v1", lock := .place, sourceHash := none, time := 0 } }

/- Content-addressed upload pipeline (`FileUploader` in the source).  The
platform digest primitive (`window.crypto.subtle.digest("SHA-256", ...)`) is
a parameter: a function from the byte buffer to the digest bytes. -/

/-- The base64 alphabet used by `btoa`. -/
def base64Chars : String :=
  "ABCDEFGHIJKLMNOPQRSTUVWXYZabcdefghijklmnopqrstuvwxyz0123456789+/"

/-- The base64 character for a 6-bit group. -/
def b64Char (n : Nat) : Char := base64Chars.toList.getD n 'A'

/-- `btoa(String.fromCharCode(...bytes))`: base64 of a byte list, with
padding. -/
def btoa : List Nat → String
  | [] => ""
  | [a] => String.mk [b64Char (a / 4), b64Char (a % 4 * 16), '=', '=']
  | [a, b] => String.mk [b64Char (a / 4), b64Char (a % 4 * 16 + b / 16), b64Char (b % 16 * 4), '=']
  | a :: b :: c :: rest =>
      String.mk [b64Char (a / 4), b64Char (a % 4 * 16 + b / 16),
                 b64Char (b % 16 * 4 + c / 64), b64Char (c % 64)] ++ btoa rest

/-- `toBase64url(bits)`: strip padding, make the alphabet url-safe. -/
def toBase64url (bits : List Nat) : String :=
  String.mk ((btoa bits).toList.filterMap (fun ch =>
    if ch = '=' then none
    else if ch = '+' then some '-'
    else if ch = '/' then some '_'
    else some ch))

/-- The hard-coded hash returned for a zero-length buffer ("MS Edge does not
like empty buffer"). -/
def EMPTY_SOURCE_HASH : String := "47DEQpj8HBSa-_TImW-5JCeuQeRkm5NMpJWZG3hSuFU"

/-- A dropped file as the uploader sees it: its raw (pre-conversion) bytes,
name, and mime type. -/
structure FileUploader where
  sourceBytes : List Nat
  fileName : String
  mimeType : String

/-- `this.needsConversion = file.type !== 'application/pdf'`. -/
def needsConversion (f : FileUploader) : Bool := f.mimeType ≠ "application/pdf"

/-- `getSourceBuffer()`: the unmodified raw bytes of the dropped file. -/
def getSourceBuffer (f : FileUploader) : List Nat := f.sourceBytes

/-- `hashSourceBuffer()`: the fixed constant for a zero-length buffer,
otherwise the url-safe base64 of the platform digest of the buffer. -/
def hashSourceBuffer (digest : List Nat → List Nat) (buffer : List Nat) : String :=
  if buffer.length = 0 then EMPTY_SOURCE_HASH
  else toBase64url (digest buffer)

/-- `getSourceHash()`: the hash of the source buffer (the pre-conversion
bytes), memoised in the source but a pure function here. -/
def getSourceHash (digest : List Nat → List Nat) (f : FileUploader) : String :=
  hashSourceBuffer digest (getSourceBuffer f)

/-- The buffer that `getPDFHandle()` stores: the conversion result when the
file is not already a PDF, the source buffer otherwise. -/
def getPDFBuffer (convert : List Nat → List Nat) (f : FileUploader) : List Nat :=
  if needsConversion f then convert (getSourceBuffer f) else getSourceBuffer f

theorem applyLock_place_eq (st : PDFModel) (now : Int) (w : String) (sh : Option String) :
    applyLockIfAvailable st now w .place sh =
      match st.interactionStatus with
      | some l =>
          if l.viewId ≠ "" ∧ (l.viewId ≠ w ∨ l.lock ≠ .place) then none
          else some (setLock st now w .place sh)
      | none => some (setLock st now w .place sh) := by
  cases h : st.interactionStatus <;> simp [applyLockIfAvailable, h]

theorem applyLock_load_eq (st : PDFModel) (now : Int) (w : String) (sh : Option String) :
    applyLockIfAvailable st now w .load sh =
      match st.interactionStatus with
      | some l =>
          if l.lock = .load ∧ l.sourceHash = sh then none
          else some (setLock st now w .load sh)
      | none => some (setLock st now w .load sh) := by
  cases h : st.interactionStatus <;> simp [applyLockIfAvailable, h]

theorem applyLock_eq_some {st : PDFModel} {now : Int} {w : String} {k : LockKind}
    {sh : Option String} {st1 : PDFModel}
    (h : applyLockIfAvailable st now w k sh = some st1) :
    st1 = setLock st now w k sh := by
  unfold applyLockIfAvailable at h
  split at h
  · split at h
    · cases h
    · exact (Option.some.inj h).symm
  · split at h
    · cases h
    · exact (Option.some.inj h).symm
  · exact (Option.some.inj h).symm

theorem setLock_interactionStatus (st : PDFModel) (now : Int) (v : String)
    (k : LockKind) (sh : Option String) :
    (setLock st now v k sh).interactionStatus =
      some { viewId := v, lock := k, sourceHash := sh, time := now } := rfl

theorem initModel_lockWF : lockWF initModel := by
  intro l hl
  simp [initModel, resetPlaceParameters] at hl

theorem lockWF_step (st : PDFModel) (c : Cmd) (hwf : lockWF st) (hc : cmdWF c) :
    lockWF (step st c).1 := by
  cases c with
  | requestLoad now v h n u =>
      simp only [step, requestLoad]
      cases hres : applyLockIfAvailable st now v .load (some h) with
      | none => exact hwf
      | some st1 =>
          intro l hl
          rw [applyLock_eq_some hres, setLock_interactionStatus] at hl
          cases hl
          exact hc
  | startLoad v h hd n u =>
      simp only [step, startLoad]
      split
      · exact hwf
      · intro l hl
        simp [resetPlaceParameters] at hl
  | setPlace now v pg t lf sc r m =>
      simp only [step, setPlace]
      cases hres : applyLockIfAvailable st now v .place none with
      | none => exact hwf
      | some st1 =>
          intro l hl
          simp only [applyPlace] at hl
          rw [applyLock_eq_some hres, setLock] at hl
          simp at hl
          cases hl
          exact hc
  | endInteraction v =>
      cases hs : st.interactionStatus with
      | none => simp only [step, endInteraction, hs]; exact hwf
      | some l =>
          simp only [step, endInteraction, hs]
          split
          · intro l' hl'; simp [releaseInteractionStatus] at hl'
          · exact hwf
  | requestRotation now v r =>
      simp only [step, requestRotation]
      cases hres : applyLockIfAvailable st now v .place none with
      | none => exact hwf
      | some st1 =>
          intro l hl
          rw [applyLock_eq_some hres, setLock_interactionStatus] at hl
          cases hl
          exact hc
  | requestScrollMode now v m =>
      simp only [step, requestScrollMode]
      cases hres : applyLockIfAvailable st now v .place none with
      | none => exact hwf
      | some st1 =>
          intro l hl
          rw [applyLock_eq_some hres, setLock_interactionStatus] at hl
          cases hl
          exact hc
  | onViewExit v =>
      cases hs : st.interactionStatus with
      | none => simp only [step, onViewExit, hs]; exact hwf
      | some l =>
          simp only [step, onViewExit, hs]
          split
          · intro l' hl'; simp [releaseInteractionStatus] at hl'
          · exact hwf
  | checkInteractionStatus now =>
      cases hs : st.interactionStatus with
      | none => simp only [step, checkInteractionStatus, hs]; exact hwf
      | some l =>
          simp only [step, checkInteractionStatus, hs]
          split
          · intro l' hl'; simp [releaseInteractionStatus] at hl'
          · exact hwf

theorem run_lockWF (cmds : List Cmd) : ∀ st : PDFModel, lockWF st →
    (∀ c ∈ cmds, cmdWF c) → lockWF (run st cmds).1 := by
  induction cmds with
  | nil => intro st hwf _; exact hwf
  | cons c cs ih =>
      intro st hwf hall
      simp only [run]
      exact ih _ (lockWF_step st c hwf (hall c (List.mem_cons_self _ _)))
        (fun c' hc' => hall c' (List.mem_cons_of_mem _ hc'))

theorem mostRecentApprovedHash_append (evs evs' : List ModelEvent) :
    mostRecentApprovedHash (evs ++ evs') =
      evs'.foldl (fun acc e => match approvedHash e with | some h => some h | none => acc)
        (mostRecentApprovedHash evs) := by
  simp [mostRecentApprovedHash, List.foldl_append]

theorem hashInv_step (st : PDFModel) (evs : List ModelEvent) (c : Cmd)
    (hinv : hashInv st evs) :
    hashInv (step st c).1 (evs ++ (step st c).2) := by
  cases c with
  | requestLoad now v h n u =>
      simp only [step, requestLoad]
      cases hres : applyLockIfAvailable st now v .load (some h) with
      | none => simpa using hinv
      | some st1 =>
          intro h' hl'
          rw [applyLock_eq_some hres] at hl'
          simp [setLock, lockSourceHash] at hl'
          cases hl'
          simp [mostRecentApprovedHash_append, approvedHash]
  | startLoad v h hd n u =>
      simp only [step, startLoad]
      split
      · intro h' hl'
        simp at hl'
        simpa using hinv h' hl'
      · intro h' hl'
        simp [resetPlaceParameters, lockSourceHash] at hl'
  | setPlace now v pg t lf sc r m =>
      simp only [step, setPlace]
      cases hres : applyLockIfAvailable st now v .place none with
      | none => simpa using hinv
      | some st1 =>
          intro h' hl'
          simp only [applyPlace] at hl'
          rw [applyLock_eq_some hres, setLock] at hl'
          simp [lockSourceHash] at hl'
  | endInteraction v =>
      cases hs : st.interactionStatus with
      | none => simp only [step, endInteraction, hs]; simpa using hinv
      | some l =>
          simp only [step, endInteraction, hs]
          split
          · intro h' hl'; simp [releaseInteractionStatus, lockSourceHash] at hl'
          · simpa using hinv
  | requestRotation now v r =>
      simp only [step, requestRotation]
      cases hres : applyLockIfAvailable st now v .place none with
      | none => simpa using hinv
      | some st1 =>
          intro h' hl'
          rw [applyLock_eq_some hres, setLock] at hl'
          simp [lockSourceHash] at hl'
  | requestScrollMode now v m =>
      simp only [step, requestScrollMode]
      cases hres : applyLockIfAvailable st now v .place none with
      | none => simpa using hinv
      | some st1 =>
          intro h' hl'
          rw [applyLock_eq_some hres, setLock] at hl'
          simp [lockSourceHash] at hl'
  | onViewExit v =>
      cases hs : st.interactionStatus with
      | none => simp only [step, onViewExit, hs]; simpa using hinv
      | some l =>
          simp only [step, onViewExit, hs]
          split
          · intro h' hl'; simp [releaseInteractionStatus, lockSourceHash] at hl'
          · simpa using hinv
  | checkInteractionStatus now =>
      cases hs : st.interactionStatus with
      | none => simp only [step, checkInteractionStatus, hs]; simpa using hinv
      | some l =>
          simp only [step, checkInteractionStatus, hs]
          split
          · intro h' hl'; simp [releaseInteractionStatus, lockSourceHash] at hl'
          · simpa using hinv

theorem run_hashInv (cmds : List Cmd) : ∀ (st : PDFModel) (evs : List ModelEvent),
    hashInv st evs → hashInv (run st cmds).1 (evs ++ (run st cmds).2) := by
  induction cmds with
  | nil => intro st evs hinv; simp only [run]; simpa using hinv
  | cons c cs ih =>
      intro st evs hinv
      simp only [run]
      have h1 := hashInv_step st evs c hinv
      have h2 := ih (step st c).1 (evs ++ (step st c).2) h1
      simpa [List.append_assoc] using h2

theorem lookupHandle_append_of_some {kh : List (String × HandleEntry)} {h : String}
    {e : HandleEntry} (hfound : lookupHandle kh h = some e)
    (rest : List (String × HandleEntry)) :
    lookupHandle (kh ++ rest) h = some e := by
  induction kh with
  | nil => simp [lookupHandle] at hfound
  | cons p ps ih =>
      by_cases hp : p.1 = h
      · simp [lookupHandle, hp] at hfound ⊢; exact hfound
      · simp [lookupHandle, hp] at hfound ⊢; exact ih hfound

theorem lookupHandle_append_self {kh : List (String × HandleEntry)} {h : String}
    (hnone : lookupHandle kh h = none) (e : HandleEntry) :
    lookupHandle (kh ++ [(h, e)]) h = some e := by
  induction kh with
  | nil => simp [lookupHandle]
  | cons p ps ih =>
      by_cases hp : p.1 = h
      · simp [lookupHandle, hp] at hnone
      · simp [lookupHandle, hp] at hnone ⊢; exact ih hnone

theorem lookupHandle_append_other {kh : List (String × HandleEntry)} {h h' : String}
    (hne : h' ≠ h) (e' : HandleEntry) :
    lookupHandle (kh ++ [(h', e')]) h = lookupHandle kh h := by
  induction kh with
  | nil => simp [lookupHandle, hne]
  | cons p ps ih =>
      by_cases hp : p.1 = h
      · simp [lookupHandle, hp]
      · simp [lookupHandle, hp]; exact ih

theorem registerHandle_preserves {kh : List (String × HandleEntry)} {h : String}
    {e : HandleEntry} (hfound : lookupHandle kh h = some e) (h' : String)
    (hd : Nat) (n : String) :
    lookupHandle (registerHandle kh h' hd n) h = some e := by
  unfold registerHandle
  cases hl : lookupHandle kh h' with
  | none => exact lookupHandle_append_of_some hfound _
  | some _ => exact hfound

theorem registerHandle_new {kh : List (String × HandleEntry)} {h : String}
    (hnone : lookupHandle kh h = none) (hd : Nat) (n : String) :
    registerHandle kh h hd n = kh ++ [(h, { handle := hd, name := n })] := by
  unfold registerHandle
  rw [hnone]

theorem step_knownHandles (st : PDFModel) (c : Cmd) :
    (step st c).1.knownHandles = st.knownHandles ∨
    (∃ v h hd n u, c = Cmd.startLoad v h hd n u ∧
      (step st c).1.knownHandles = registerHandle st.knownHandles h hd n) := by
  cases c with
  | requestLoad now v h n u =>
      left
      simp only [step, requestLoad]
      cases hres : applyLockIfAvailable st now v .load (some h) with
      | none => rfl
      | some st1 => rw [applyLock_eq_some hres]; rfl
  | startLoad v h hd n u =>
      right
      refine ⟨v, h, hd, n, u, rfl, ?_⟩
      simp only [step, startLoad]
      split <;> simp [resetPlaceParameters]
  | setPlace now v pg t lf sc r m =>
      left
      simp only [step, setPlace]
      cases hres : applyLockIfAvailable st now v .place none with
      | none => rfl
      | some st1 => rw [applyLock_eq_some hres]; rfl
  | endInteraction v =>
      left
      cases hs : st.interactionStatus with
      | none => simp only [step, endInteraction, hs]
      | some l =>
          simp only [step, endInteraction, hs]
          split <;> simp [releaseInteractionStatus]
  | requestRotation now v r =>
      left
      simp only [step, requestRotation]
      cases hres : applyLockIfAvailable st now v .place none with
      | none => rfl
      | some st1 => rw [applyLock_eq_some hres]; rfl
  | requestScrollMode now v m =>
      left
      simp only [step, requestScrollMode]
      cases hres : applyLockIfAvailable st now v .place none with
      | none => rfl
      | some st1 => rw [applyLock_eq_some hres]; rfl
  | onViewExit v =>
      left
      cases hs : st.interactionStatus with
      | none => simp only [step, onViewExit, hs]
      | some l =>
          simp only [step, onViewExit, hs]
          split <;> simp [releaseInteractionStatus]
  | checkInteractionStatus now =>
      left
      cases hs : st.interactionStatus with
      | none => simp only [step, checkInteractionStatus, hs]
      | some l =>
          simp only [step, checkInteractionStatus, hs]
          split <;> simp [releaseInteractionStatus]

theorem step_preserves_handle {st : PDFModel} {h : String} {e : HandleEntry}
    (hfound : lookupHandle st.knownHandles h = some e) (c : Cmd) :
    lookupHandle (step st c).1.knownHandles h = some e := by
  rcases step_knownHandles st c with heq | ⟨v, h', hd, n, u, _, heq⟩
  · rw [heq]; exact hfound
  · rw [heq]; exact registerHandle_preserves hfound h' hd n

/-- Claim C1: for every sequence of commands delivered to the model, the
interaction-lock state is always either empty or a single record with one
(nonempty) holder and one kind; and while a place lock is held, a
setPlace / requestRotation / requestScrollMode command from any other
client is rejected without touching PlaceState and without publishing. -/
theorem c1_single_lock_mutual_exclusion :
    (∀ cmds : List Cmd, (∀ c ∈ cmds, cmdWF c) →
      ∀ l, (run initModel cmds).1.interactionStatus = some l → l.viewId ≠ "")
    ∧ (∀ (st : PDFModel) (l : LockRec), lockWF st →
        st.interactionStatus = some l → l.lock = .place →
        ∀ (now : Int) (w : String) (pg t lf : Int) (sc : ScaleValue) (r m : Int),
          w ≠ l.viewId →
          setPlace st now w pg t lf sc r m = (st, [])
          ∧ requestRotation st now w r = (st, [])
          ∧ requestScrollMode st now w m = (st, [])) := by
  constructor
  · intro cmds hall
    exact run_lockWF cmds initModel initModel_lockWF hall
  · intro st l hwf hst hk now w pg t lf sc r m hw
    have hrej : applyLockIfAvailable st now w .place none = none := by
      simp only [applyLock_place_eq, hst]
      rw [if_pos ⟨hwf l hst, Or.inl (fun he => hw he.symm)⟩]
    refine ⟨?_, ?_, ?_⟩
    · simp only [setPlace, hrej]
    · simp only [requestRotation, hrej]
    · simp only [requestScrollMode, hrej]

/-- Witness for C1 at concrete inputs: a one-command run keeps the lock
well-formed, and a place lock held by "v1" makes "v2"'s setPlace a no-op. -/
theorem c1_witness :
    (∀ l, (run initModel [Cmd.setPlace 0 "v1" 1 0 0 (.str "1.0") 0 0]).1.interactionStatus
        = some l → l.viewId ≠ "")
    ∧ setPlace stPlaceLockExample 5 "v2" 2 0 0 (.str "1.0") 0 0 = (stPlaceLockExample, []) := by
  constructor
  · refine (c1_single_lock_mutual_exclusion).1 [Cmd.setPlace 0 "v1" 1 0 0 (.str "1.0") 0 0] ?_
    intro c hc
    rw [List.mem_singleton] at hc
    subst hc
    exact (by decide : "v1" ≠ "")
  · refine ((c1_single_lock_mutual_exclusion).2 stPlaceLockExample
      { viewId := "v1", lock := .place, sourceHash := none, time := 0 }
      ?_ rfl rfl 5 "v2" 2 0 0 (.str "1.0") 0 0 (by decide)).1
    intro l hl
    rw [← Option.some.inj hl]
    decide

/-- Claim C2: requestLoad is rejected (no load.approved, lock unchanged)
iff the current lock is a load lock for the same hash; in every other
state the lock becomes a load lock for that hash held by the requesting
client and load.approved is emitted. -/
theorem c2_requestLoad_idempotent_preemption
    (st : PDFModel) (now : Int) (v h n : String) (u : Option String) :
    ((∃ l, st.interactionStatus = some l ∧ l.lock = .load ∧ l.sourceHash = some h) →
      requestLoad st now v h n u = (st, []))
    ∧ ((∀ l, st.interactionStatus = some l → l.lock = .load → l.sourceHash ≠ some h) →
      requestLoad st now v h n u =
        (setLock st now v .load (some h), [.loadApproved v h n u])) := by
  constructor
  · rintro ⟨l, hst, hk, hsh⟩
    simp only [requestLoad, applyLock_load_eq, hst]
    rw [if_pos ⟨hk, hsh⟩]
  · intro hno
    cases hst : st.interactionStatus with
    | none => simp only [requestLoad, applyLock_load_eq, hst]
    | some l =>
        simp only [requestLoad, applyLock_load_eq, hst]
        rw [if_neg (fun hc => hno l hst hc.1 hc.2)]

/-- Witness for C2: a duplicate requestLoad for the pending hash is a no-op;
on the fresh model a requestLoad installs the load lock and approves. -/
theorem c2_witness :
    requestLoad stLoadLockExample 5 "v2" "h1" "n" none = (stLoadLockExample, [])
    ∧ requestLoad initModel 0 "v1" "h1" "n" none =
        (setLock initModel 0 "v1" .load (some "h1"), [.loadApproved "v1" "h1" "n" none]) := by
  constructor
  · exact (c2_requestLoad_idempotent_preemption stLoadLockExample 5 "v2" "h1" "n" none).1
      ⟨_, rfl, rfl, rfl⟩
  · refine (c2_requestLoad_idempotent_preemption initModel 0 "v1" "h1" "n" none).2 ?_
    intro l hl
    simp [initModel, resetPlaceParameters] at hl

/-- Claim C4: the lease check releases the lock exactly when the lock is
still a place lock whose grant time is exactly PLACE_TIMEOUT before the
check's firing time; a check firing at any other instant is a no-op, and a
load lock is never cleared by the check. -/
theorem c4_place_lease_expiry (st : PDFModel) (l : LockRec) (now : Int)
    (hst : st.interactionStatus = some l) :
    (l.lock = .place → now - l.time = Q_PLACE_TIMEOUT →
      checkInteractionStatus st now = (releaseInteractionStatus st, []))
    ∧ (l.lock = .place → now - l.time ≠ Q_PLACE_TIMEOUT →
      checkInteractionStatus st now = (st, []))
    ∧ (l.lock = .load → checkInteractionStatus st now = (st, [])) := by
  refine ⟨?_, ?_, ?_⟩
  · intro hk ht
    simp only [checkInteractionStatus, hst]
    rw [if_pos ⟨hk, ht⟩]
  · intro hk ht
    simp only [checkInteractionStatus, hst]
    rw [if_neg (fun hc => ht hc.2)]
  · intro hk
    have hnc : ¬(l.lock = .place ∧ now - l.time = Q_PLACE_TIMEOUT) := by
      rintro ⟨h1, -⟩
      rw [hk] at h1
      cases h1
    simp only [checkInteractionStatus, hst]
    rw [if_neg hnc]

/-- Witness for C4: a place lock granted at time 0 is released by the check
at time 1000, untouched by a check at 500, and a load lock survives the
check at 1000. -/
theorem c4_witness :
    checkInteractionStatus stPlaceLockExample 1000 = (releaseInteractionStatus stPlaceLockExample, [])
    ∧ checkInteractionStatus stPlaceLockExample 500 = (stPlaceLockExample, [])
    ∧ checkInteractionStatus stLoadLockExample 1000 = (stLoadLockExample, []) := by
  refine ⟨?_, ?_, ?_⟩
  · exact (c4_place_lease_expiry stPlaceLockExample
      { viewId := "v1", lock := .place, sourceHash := none, time := 0 } 1000 rfl).1 rfl (by decide)
  · exact (c4_place_lease_expiry stPlaceLockExample
      { viewId := "v1", lock := .place, sourceHash := none, time := 0 } 500 rfl).2.1 rfl (by decide)
  · exact (c4_place_lease_expiry stLoadLockExample
      { viewId := "v1", lock := .load, sourceHash := some "h1", time := 0 } 1000 rfl).2.2 rfl

/-- Claim C5: setPlace is granted iff no lock is held or the current lock
is a place lock already held by the same client; on grant the lock's time
is refreshed to now, the full place delta replaces PlaceState wholesale,
and place.update carrying the client id is emitted; on rejection nothing
changes and nothing is emitted. -/
theorem c5_setPlace_grant_semantics (st : PDFModel) (now : Int) (v : String)
    (pg t lf : Int) (sc : ScaleValue) (r m : Int) (hwf : lockWF st) :
    ((st.interactionStatus = none ∨
        (∃ l, st.interactionStatus = some l ∧ l.lock = .place ∧ l.viewId = v)) →
      setPlace st now v pg t lf sc r m =
        ({ st with
            interactionStatus := some { viewId := v, lock := .place, sourceHash := none, time := now }
            scroll := { page := some pg, top := t, left := lf }
            relativeScale := sc
            pagesRotation := r
            scrollMode := m },
          [.placeUpdate v]))
    ∧ (∀ l, st.interactionStatus = some l → ¬(l.lock = .place ∧ l.viewId = v) →
        setPlace st now v pg t lf sc r m = (st, [])) := by
  constructor
  · intro hcond
    have hsome : applyLockIfAvailable st now v .place none
        = some (setLock st now v .place none) := by
      rcases hcond with hnone | ⟨l, hst, hk, hv⟩
      · simp only [applyLock_place_eq, hnone]
      · simp only [applyLock_place_eq, hst]
        rw [if_neg]
        rintro ⟨-, h2 | h2⟩
        · exact h2 hv
        · exact h2 hk
    simp only [setPlace, hsome, applyPlace, setLock]
  · intro l hst hnab
    have hrej : applyLockIfAvailable st now v .place none = none := by
      simp only [applyLock_place_eq, hst]
      refine if_pos ⟨hwf l hst, ?_⟩
      by_cases hv : l.viewId = v
      · exact Or.inr (fun hk => hnab ⟨hk, hv⟩)
      · exact Or.inl hv
    simp only [setPlace, hrej]

/-- Witness for C5: a grant on the fresh model and a rejection against
another client's place lock. -/
theorem c5_witness :
    setPlace initModel 0 "v1" 3 10 20 (.str "1.0") 90 1 =
      ({ initModel with
          interactionStatus := some { viewId := "v1", lock := .place, sourceHash := none, time := 0 }
          scroll := { page := some 3, top := 10, left := 20 }
          relativeScale := .str "1.0"
          pagesRotation := 90
          scrollMode := 1 }, [.placeUpdate "v1"])
    ∧ setPlace stPlaceLockExample 5 "v2" 3 10 20 (.str "1.0") 90 1 = (stPlaceLockExample, []) := by
  constructor
  · exact (c5_setPlace_grant_semantics initModel 0 "v1" 3 10 20 (.str "1.0") 90 1
      initModel_lockWF).1 (Or.inl rfl)
  · refine (c5_setPlace_grant_semantics stPlaceLockExample 5 "v2" 3 10 20 (.str "1.0") 90 1
      ?_).2 _ rfl ?_
    · intro l hl
      rw [← Option.some.inj hl]
      decide
    · rintro ⟨-, hv⟩
      exact absurd hv (by decide)

/-- Claim C3: a startLoad without override marker whose hash differs from
the hash most recently approved via requestLoad is silently dropped: the
lock, PlaceState and document identity are untouched and no persist or
load.ready event is published; a startLoad carrying the override marker
always proceeds (persists and publishes load.ready). -/
theorem c3_startLoad_supersession :
    (∀ (cmds : List Cmd) (v h : String) (hd : Nat) (n : String) (u : Option String),
      truthyStr u = false →
      mostRecentApprovedHash (run initModel cmds).2 ≠ some h →
      (startLoad (run initModel cmds).1 v h hd n u).1.interactionStatus
          = (run initModel cmds).1.interactionStatus
        ∧ (startLoad (run initModel cmds).1 v h hd n u).1.scroll
          = (run initModel cmds).1.scroll
        ∧ (startLoad (run initModel cmds).1 v h hd n u).1.relativeScale
          = (run initModel cmds).1.relativeScale
        ∧ (startLoad (run initModel cmds).1 v h hd n u).1.pagesRotation
          = (run initModel cmds).1.pagesRotation
        ∧ (startLoad (run initModel cmds).1 v h hd n u).1.scrollMode
          = (run initModel cmds).1.scrollMode
        ∧ (startLoad (run initModel cmds).1 v h hd n u).1.docSourceHash
          = (run initModel cmds).1.docSourceHash
        ∧ (startLoad (run initModel cmds).1 v h hd n u).2 = [])
    ∧ (∀ (st : PDFModel) (v h : String) (hd : Nat) (n : String) (u : Option String),
      truthyStr u = true →
      (startLoad st v h hd n u).2 = [.sessionPersisted, .loadReady v h n u]) := by
  constructor
  · intro cmds v h hd n u hu hmra
    have hinv0 : hashInv initModel [] := by
      intro h' hl'
      simp [initModel, resetPlaceParameters, lockSourceHash] at hl'
    have hinv := run_hashInv cmds initModel [] hinv0
    simp only [List.nil_append] at hinv
    have hne : some h ≠ lockSourceHash (run initModel cmds).1.interactionStatus := by
      intro heq
      exact hmra (hinv h heq.symm)
    simp only [startLoad]
    rw [if_pos ⟨hu, hne⟩]
    exact ⟨rfl, rfl, rfl, rfl, rfl, rfl, rfl⟩
  · intro st v h hd n u hu
    simp only [startLoad]
    rw [if_neg]
    rintro ⟨h1, -⟩
    rw [hu] at h1
    cases h1

/-- Witness for C3: after "v1" is approved to load "h1", a late override-free
startLoad for "h2" publishes nothing; an override startLoad always publishes
persist and load.ready. -/
theorem c3_witness :
    (startLoad (run initModel [Cmd.requestLoad 0 "v1" "h1" "n" none]).1 "v2" "h2" 9 "d" none).2 = []
    ∧ (startLoad initModel "v1" "h1" 7 "d" (some "view aa")).2 =
        [.sessionPersisted, .loadReady "v1" "h1" "d" (some "view aa")] := by
  constructor
  · exact ((c3_startLoad_supersession).1 [Cmd.requestLoad 0 "v1" "h1" "n" none]
      "v2" "h2" 9 "d" none rfl (by decide)).2.2.2.2.2.2
  · exact (c3_startLoad_supersession).2 initModel "v1" "h1" 7 "d" (some "view aa") rfl

/-- Claim C6 counterexample: endInteraction clears a load lock held by the
same client, contradicting the claim that a lock of a different kind is
left unchanged. -/
theorem c6_load_lock_cleared_counterexample :
    stLoadLockExample.interactionStatus =
      some { viewId := "v1", lock := .load, sourceHash := some "h1", time := 0 }
    ∧ (endInteraction stLoadLockExample "v1").1.interactionStatus = none
    ∧ endInteraction stLoadLockExample "v1" ≠ (stLoadLockExample, []) := by
  refine ⟨rfl, rfl, ?_⟩
  decide

/-- Claim C6 amended: endInteraction clears the lock iff the current lock —
of any kind, place or load — is held by the calling client; a lock held by
a different client is left unchanged. -/
theorem c6_endInteraction_amended (st : PDFModel) (v : String) :
    ((∃ l, st.interactionStatus = some l ∧ l.viewId = v) →
      endInteraction st v = (releaseInteractionStatus st, []))
    ∧ ((∀ l, st.interactionStatus = some l → l.viewId ≠ v) →
      endInteraction st v = (st, [])) := by
  constructor
  · rintro ⟨l, hst, hv⟩
    simp only [endInteraction, hst]
    rw [if_pos hv]
  · intro hno
    cases hst : st.interactionStatus with
    | none => simp only [endInteraction, hst]
    | some l =>
        simp only [endInteraction, hst]
        rw [if_neg (hno l hst)]

/-- Witness for C6 amended: the holder's endInteraction clears the load
lock; another client's endInteraction is a no-op. -/
theorem c6_witness :
    endInteraction stLoadLockExample "v1" = (releaseInteractionStatus stLoadLockExample, [])
    ∧ endInteraction stLoadLockExample "v2" = (stLoadLockExample, []) := by
  constructor
  · exact (c6_endInteraction_amended stLoadLockExample "v1").1 ⟨_, rfl, rfl⟩
  · refine (c6_endInteraction_amended stLoadLockExample "v2").2 ?_
    intro l hl
    rw [← Option.some.inj hl]
    decide

/-- Claim C7 counterexample: an approved requestRotation emits
rotation.approved but does not change the model's pagesRotation field to
the requested value. -/
theorem c7_rotation_not_applied_counterexample :
    (requestRotation initModel 0 "v1" 90).2 = [.rotationApproved "v1" 90]
    ∧ initModel.pagesRotation = 0
    ∧ (requestRotation initModel 0 "v1" 90).1.pagesRotation = 0
    ∧ (requestRotation initModel 0 "v1" 90).1.pagesRotation ≠ 90 := by
  decide

/-- Claim C7 amended: requestRotation / requestScrollMode use the place
lock-acquisition semantics but leave every PlaceState field unchanged
(the approved value is applied by clients, not by the model), and each
emits its own approval event — never a place.update. -/
theorem c7_rotation_scrollMode_frame (st : PDFModel) (now : Int) (v : String)
    (r m : Int) :
    ((requestRotation st now v r).1.scroll = st.scroll
      ∧ (requestRotation st now v r).1.relativeScale = st.relativeScale
      ∧ (requestRotation st now v r).1.pagesRotation = st.pagesRotation
      ∧ (requestRotation st now v r).1.scrollMode = st.scrollMode)
    ∧ ((applyLockIfAvailable st now v .place none).isSome = true →
        (requestRotation st now v r).2 = [.rotationApproved v r])
    ∧ (applyLockIfAvailable st now v .place none = none →
        (requestRotation st now v r).2 = [])
    ∧ ((requestScrollMode st now v m).1.scroll = st.scroll
      ∧ (requestScrollMode st now v m).1.relativeScale = st.relativeScale
      ∧ (requestScrollMode st now v m).1.pagesRotation = st.pagesRotation
      ∧ (requestScrollMode st now v m).1.scrollMode = st.scrollMode)
    ∧ ((applyLockIfAvailable st now v .place none).isSome = true →
        (requestScrollMode st now v m).2 = [.scrollModeApproved v m])
    ∧ (applyLockIfAvailable st now v .place none = none →
        (requestScrollMode st now v m).2 = []) := by
  cases hres : applyLockIfAvailable st now v .place none with
  | none => simp [requestRotation, requestScrollMode, hres]
  | some st1 =>
      rw [applyLock_eq_some hres] at hres
      simp [requestRotation, requestScrollMode, hres, setLock]

/-- Witness for C7 amended: on the fresh model both requests are approved,
emit their events, and leave the rotation field untouched. -/
theorem c7_witness :
    (requestRotation initModel 0 "v1" 90).1.pagesRotation = initModel.pagesRotation
    ∧ (requestRotation initModel 0 "v1" 90).2 = [.rotationApproved "v1" 90]
    ∧ (requestScrollMode initModel 0 "v1" 2).2 = [.scrollModeApproved "v1" 2] := by
  have h := c7_rotation_scrollMode_frame initModel 0 "v1" 90 2
  exact ⟨h.1.2.2.1, h.2.1 rfl, h.2.2.2.2.1 rfl⟩

/-- Claim C8: a knownHandles entry, once present, survives every command
(single step and whole runs) unchanged — first writer wins — and a new
entry can only appear through a startLoad for exactly that hash, handle
and name. -/
theorem c8_knownHandles_first_writer_wins :
    (∀ (st : PDFModel) (c : Cmd) (h : String) (e : HandleEntry),
      lookupHandle st.knownHandles h = some e →
      lookupHandle (step st c).1.knownHandles h = some e)
    ∧ (∀ (cmds : List Cmd) (st : PDFModel) (h : String) (e : HandleEntry),
      lookupHandle st.knownHandles h = some e →
      lookupHandle (run st cmds).1.knownHandles h = some e)
    ∧ (∀ (st : PDFModel) (c : Cmd) (h : String) (e : HandleEntry),
      lookupHandle st.knownHandles h = none →
      lookupHandle (step st c).1.knownHandles h = some e →
      ∃ v u, c = Cmd.startLoad v h e.handle e.name u) := by
  refine ⟨?_, ?_, ?_⟩
  · intro st c h e hf
    exact step_preserves_handle hf c
  · intro cmds
    induction cmds with
    | nil => intro st h e hf; simpa [run] using hf
    | cons c cs ih =>
        intro st h e hf
        simp only [run]
        exact ih (step st c).1 h e (step_preserves_handle hf c)
  · intro st c h e hnone hfound
    rcases step_knownHandles st c with heq | ⟨v, h', hd, n, u, hceq, heq⟩
    · rw [heq, hnone] at hfound
      cases hfound
    · subst hceq
      by_cases hh : h' = h
      · subst hh
        rw [heq, registerHandle_new hnone] at hfound
        have he := Option.some.inj ((lookupHandle_append_self hnone _).symm.trans hfound)
        subst he
        exact ⟨v, u, rfl⟩
      · rw [heq] at hfound
        simp only [registerHandle] at hfound
        cases hl' : lookupHandle st.knownHandles h' with
        | some _ =>
            rw [hl'] at hfound
            rw [hnone] at hfound
            cases hfound
        | none =>
            rw [hl'] at hfound
            rw [lookupHandle_append_other hh] at hfound
            rw [hnone] at hfound
            cases hfound

/-- Witness for C8: an existing entry survives a setPlace and a whole run,
and the only way to create the entry for "h2" is the startLoad that carried
it. -/
theorem c8_witness :
    lookupHandle (step { initModel with knownHandles := [("h1", { handle := 7, name := "d" })] }
        (Cmd.setPlace 0 "v1" 1 0 0 (.str "1.0") 0 0)).1.knownHandles "h1"
      = some { handle := 7, name := "d" }
    ∧ lookupHandle (run { initModel with knownHandles := [("h1", { handle := 7, name := "d" })] }
        [Cmd.startLoad "v1" "h1" 9 "other" (some "x")]).1.knownHandles "h1"
      = some { handle := 7, name := "d" }
    ∧ (∃ v u, (Cmd.startLoad "v1" "h2" 9 "d2" none)
        = Cmd.startLoad v "h2" (HandleEntry.handle { handle := 9, name := "d2" })
            (HandleEntry.name { handle := 9, name := "d2" }) u) := by
  refine ⟨?_, ?_, ?_⟩
  · exact (c8_knownHandles_first_writer_wins).1 _ _ "h1" _ rfl
  · exact (c8_knownHandles_first_writer_wins).2.1 [Cmd.startLoad "v1" "h1" 9 "other" (some "x")]
      _ "h1" _ rfl
  · exact (c8_knownHandles_first_writer_wins).2.2 initModel
      (Cmd.startLoad "v1" "h2" 9 "d2" none) "h2" { handle := 9, name := "d2" } rfl (by decide)

/-- Claim C9: the upload pipeline's hash of a zero-length buffer is the
hard-coded constant, independently of the platform digest primitive (so
the primitive is never consulted), and on any non-empty input the hash is
the url-safe base64 of the digest of exactly the unmodified pre-conversion
source bytes. -/
theorem c9_source_hash (digest : List Nat → List Nat) (f : FileUploader) :
    (f.sourceBytes = [] → getSourceHash digest f = EMPTY_SOURCE_HASH)
    ∧ (f.sourceBytes ≠ [] → getSourceHash digest f = toBase64url (digest f.sourceBytes)) := by
  constructor
  · intro he
    simp [getSourceHash, hashSourceBuffer, getSourceBuffer, he]
  · intro hne
    simp [getSourceHash, hashSourceBuffer, getSourceBuffer, hne]

/-- Witness for C9: an empty file hashes to the constant whatever the
digest returns; a one-byte file hashes to the encoded digest of its own
bytes. -/
theorem c9_witness :
    getSourceHash (fun _ => [0, 1, 2])
        { sourceBytes := [], fileName := "a", mimeType := "application/pdf" }
      = EMPTY_SOURCE_HASH
    ∧ getSourceHash (fun _ => [0, 1, 2])
        { sourceBytes := [5], fileName := "a", mimeType := "application/pdf" }
      = toBase64url [0, 1, 2] := by
  constructor
  · exact (c9_source_hash (fun _ => [0, 1, 2])
      { sourceBytes := [], fileName := "a", mimeType := "application/pdf" }).1 rfl
  · exact (c9_source_hash (fun _ => [0, 1, 2])
      { sourceBytes := [5], fileName := "a", mimeType := "application/pdf" }).2 (by decide)

/-- Claim C10: a startLoad whose hash is new registers its
(hash → handle, name) entry in knownHandles before the supersession check,
so even a dropped startLoad leaves the entry behind; a dropped startLoad
changes nothing else and publishes nothing. -/
theorem c10_startLoad_registers_before_supersession
    (st : PDFModel) (v h : String) (hd : Nat) (n : String) (u : Option String)
    (hnew : lookupHandle st.knownHandles h = none) :
    lookupHandle (startLoad st v h hd n u).1.knownHandles h
        = some { handle := hd, name := n }
    ∧ (truthyStr u = false → some h ≠ lockSourceHash st.interactionStatus →
        (startLoad st v h hd n u).2 = []
          ∧ (startLoad st v h hd n u).1 =
              { st with knownHandles := st.knownHandles ++ [(h, { handle := hd, name := n })] }) := by
  have hreg : lookupHandle (registerHandle st.knownHandles h hd n) h
      = some { handle := hd, name := n } := by
    rw [registerHandle_new hnew]
    exact lookupHandle_append_self hnew _
  constructor
  · simp only [startLoad]
    split
    · exact hreg
    · simpa [resetPlaceParameters] using hreg
  · intro hu hne
    simp only [startLoad]
    rw [if_pos ⟨hu, hne⟩, registerHandle_new hnew]
    exact ⟨rfl, rfl⟩

/-- Witness for C10: on the fresh model (whose lock carries no pending
hash) an override-free startLoad is dropped yet registers its handle. -/
theorem c10_witness :
    lookupHandle (startLoad initModel "v1" "h1" 7 "d" none).1.knownHandles "h1"
      = some { handle := 7, name := "d" }
    ∧ (startLoad initModel "v1" "h1" 7 "d" none).2 = [] := by
  have h := c10_startLoad_registers_before_supersession initModel "v1" "h1" 7 "d" none rfl
  exact ⟨h.1, (h.2 rfl (by decide)).1⟩

end DocView
